import Mathlib

/-!
Shallow embedding of the barge-in classifier and speech-state coordinator of
`src/examples/voice_agents/basic_agent.py`.

The decision core of that file is:

* the module-level globals `agent_is_speaking`, `IGNORE_WORDS`, `INTERRUPT_WORDS`
  (lines 31, 34-41);
* the lifecycle handlers `MyAgent.on_enter` / `MyAgent.on_response_complete`
  (lines 65-81), which set / clear the speaking flag;
* the hook `MyAgent.on_message` (lines 83-115), which normalizes the incoming
  message (`lower`, `strip`, `split`), computes `contains_interrupt` (Python
  substring test `word in text` over `INTERRUPT_WORDS`) and `only_soft_words`
  (non-empty token list, every token a member of `IGNORE_WORDS`), and returns
  either the original `message` or `None`.

Python string primitives (`str.lower`, `str.strip`, `str.split`, `in`) are
modelled on the character list of the string (ASCII case mapping, as all
configured words and examples are ASCII).  The mutable module state
(the speaking flag, the word-list globals, and the emitted log records) is an
explicit `SessionState` record threaded through the handlers; `logger.info`
calls are modelled as appending a structured `LogEntry` to the state.
-/

/-- Model of Python `str.lower()` (ASCII case mapping on each character). -/
def pyLower (s : String) : String := ⟨s.data.map Char.toLower⟩

/-- Drop whitespace characters from both ends of a character list. -/
def trimChars (cs : List Char) : List Char :=
  ((cs.dropWhile Char.isWhitespace).reverse.dropWhile Char.isWhitespace).reverse

/-- Model of Python `str.strip()` with no arguments (trim whitespace at both ends). -/
def pyStrip (s : String) : String := ⟨trimChars s.data⟩

/-- Cut a character list at every whitespace character (keeping empty pieces);
accumulator-based helper for `pySplit`. -/
def splitWsGo : List Char → List Char → List (List Char)
  | acc, [] => [acc.reverse]
  | acc, c :: cs =>
    if c.isWhitespace then acc.reverse :: splitWsGo [] cs
    else splitWsGo (c :: acc) cs

/-- Model of Python `str.split()` with no arguments: split on whitespace runs,
discarding empty pieces. -/
def pySplit (s : String) : List String :=
  ((splitWsGo [] s.data).map fun cs => String.mk cs).filter fun w => w ≠ ""

/-- Does `needle` occur at the start of `hay`? (helper for `pyIn`). -/
def listStarts : List Char → List Char → Bool
  | [], _ => true
  | _ :: _, [] => false
  | a :: as, b :: bs => a == b && listStarts as bs

/-- Does `needle` occur as a contiguous sublist of `hay`? (helper for `pyIn`). -/
def listHasSub (needle : List Char) : List Char → Bool
  | [] => needle.isEmpty
  | b :: bs => listStarts needle (b :: bs) || listHasSub needle bs

/-- Model of the Python membership test `needle in hay` on strings:
raw contiguous-substring containment. -/
def pyIn (needle hay : String) : Bool := listHasSub needle.data hay.data

/-- `IGNORE_WORDS` of `basic_agent.py` (line 34): passive acknowledgement words. -/
def IGNORE_WORDS : List String := ["yeah", "ok", "okay", "hmm", "uh-huh", "right"]

/-- `INTERRUPT_WORDS` of `basic_agent.py` (line 39): real interruption commands. -/
def INTERRUPT_WORDS : List String := ["stop", "wait", "no", "hold on"]

/-- The normalization of `on_message`, line 90: `message.lower().strip()`. -/
def normalizeText (message : String) : String := pyStrip (pyLower message)

/-- One record emitted through `logger.info` by the handlers. -/
inductive LogEntry where
  | userSaid (text : String) (speaking contains_interrupt only_soft_words : Bool)
  | realInterruption
  | passiveAck
  | semanticInterruption
  | agentSilent
  | agentStartedSpeaking
  | agentFinishedSpeaking
deriving DecidableEq

/-- The mutable module-level state of `basic_agent.py`: the speaking flag
(line 31) and the two word-list globals (lines 34-41), plus the stream of log
records (observable output of `logger.info`). -/
structure SessionState where
  agent_is_speaking : Bool
  ignore_words : List String
  interrupt_words : List String
  log : List LogEntry
deriving DecidableEq

/-- The module state at interpreter start: not speaking, the two configured
word lists, nothing logged. -/
def initState : SessionState :=
  { agent_is_speaking := false
    ignore_words := IGNORE_WORDS
    interrupt_words := INTERRUPT_WORDS
    log := [] }

/-- The tagged-variant reading of the hook result (spec §3): `PassThrough`,
`HardInterrupt` and `SemanticInterrupt` carry the forwarded fragment,
`Ignore` carries nothing (the code returns `None`). -/
inductive ClassificationDecision where
  | PassThrough (fragment : String)
  | HardInterrupt (fragment : String)
  | SemanticInterrupt (fragment : String)
  | Ignore
deriving DecidableEq

/-- The return value of `on_message` that each decision variant stands for:
the forwarded fragment, or `none` for `Ignore`. -/
def decisionReturn : ClassificationDecision → Option String
  | .PassThrough m => some m
  | .HardInterrupt m => some m
  | .SemanticInterrupt m => some m
  | .Ignore => none

/-- The decision logic of `MyAgent.on_message` (lines 90-115) as a pure
function of the speaking flag, the two word lists and the message, with its
branches tagged per the decision variants. -/
def classifyWith (agent_is_speaking : Bool)
    (ignore_words interrupt_words : List String) (message : String) :
    ClassificationDecision :=
  let text := normalizeText message
  let words := pySplit text
  let contains_interrupt := interrupt_words.any fun word => pyIn word text
  let only_soft_words :=
    !words.isEmpty && words.all fun word => ignore_words.contains word
  if agent_is_speaking then
    if contains_interrupt then ClassificationDecision.HardInterrupt message
    else if only_soft_words then ClassificationDecision.Ignore
    else ClassificationDecision.SemanticInterrupt message
  else ClassificationDecision.PassThrough message

/-- `MyAgent.on_message` (lines 83-115): normalizes the message, computes
`contains_interrupt` and `only_soft_words`, logs, and returns the original
`message` (forward) or `none` (ignore).  The state is threaded explicitly;
only the log component is written. -/
def on_message (s : SessionState) (message : String) :
    SessionState × Option String :=
  let text := normalizeText message
  let words := pySplit text
  let contains_interrupt := s.interrupt_words.any fun word => pyIn word text
  let only_soft_words :=
    !words.isEmpty && words.all fun word => s.ignore_words.contains word
  let s0 := { s with log := s.log ++
    [LogEntry.userSaid text s.agent_is_speaking contains_interrupt only_soft_words] }
  if s0.agent_is_speaking then
    if contains_interrupt then
      ({ s0 with log := s0.log ++ [LogEntry.realInterruption] }, some message)
    else if only_soft_words then
      ({ s0 with log := s0.log ++ [LogEntry.passiveAck] }, none)
    else
      ({ s0 with log := s0.log ++ [LogEntry.semanticInterruption] }, some message)
  else
    ({ s0 with log := s0.log ++ [LogEntry.agentSilent] }, some message)

/-- `MyAgent.on_enter` (lines 65-73): sets the speaking flag and logs.
(The `generate_reply` call goes to the external runtime and carries no
decision state.) -/
def on_enter (s : SessionState) : SessionState :=
  { s with agent_is_speaking := true
           log := s.log ++ [LogEntry.agentStartedSpeaking] }

/-- `MyAgent.on_response_complete` (lines 75-81): clears the speaking flag
and logs. -/
def on_response_complete (s : SessionState) : SessionState :=
  { s with agent_is_speaking := false
           log := s.log ++ [LogEntry.agentFinishedSpeaking] }

/-- The two lifecycle signals of the session (spec §4.1). -/
inductive LifecycleEvent where
  | started
  | completed
deriving DecidableEq

/-- Dispatch one lifecycle signal to its handler. -/
def lifecycleStep (s : SessionState) : LifecycleEvent → SessionState
  | .started => on_enter s
  | .completed => on_response_complete s

/-- Run a sequence of lifecycle signals from a starting state. -/
def runLifecycle (s : SessionState) (evs : List LifecycleEvent) : SessionState :=
  evs.foldl lifecycleStep s

/-- Modelled from the spec: the repository hard-codes `IGNORE_WORDS` and
`INTERRUPT_WORDS` at module level (`basic_agent.py` lines 34-41) and contains
no classifier constructor, overlap check, or `ConfigurationError` anywhere
under `src/`; spec §6-§7 require a construction-time configuration surface.
A configured classifier value holding the two word lists. -/
structure Classifier where
  ignore_words : List String
  interrupt_words : List String
deriving DecidableEq

/-- Modelled from the spec: the single configuration error kind of §7,
`ConfigurationError`. -/
inductive ConfigError where
  | ConfigurationError
deriving DecidableEq

/-- Modelled from the spec: construction validates that `ignoreWords` and
`interruptWords` do not intersect, rejecting overlapping lists with
`ConfigurationError` at construction time (§7); only a successful
construction yields a `Classifier` on which classification is possible. -/
def mkClassifier (ignore_words interrupt_words : List String) :
    Except ConfigError Classifier :=
  if ignore_words.any fun w => interrupt_words.contains w then
    Except.error ConfigError.ConfigurationError
  else
    Except.ok { ignore_words := ignore_words, interrupt_words := interrupt_words }

example : normalizeText "  No WAIT stop  " = "no wait stop" := by decide
example : pySplit "yeah   okay" = ["yeah", "okay"] := by decide
example : pyIn "no" "nostalgic" = true := by decide
example : pyIn "stop" "sto p" = false := by decide
example : classifyWith true IGNORE_WORDS INTERRUPT_WORDS "yeah okay" =
    ClassificationDecision.Ignore := by decide
example : classifyWith true IGNORE_WORDS INTERRUPT_WORDS "no wait stop" =
    ClassificationDecision.HardInterrupt "no wait stop" := by decide
example : classifyWith true IGNORE_WORDS INTERRUPT_WORDS "" =
    ClassificationDecision.SemanticInterrupt "" := by decide
example : (on_message initState "hello").2 = some "hello" := by decide

/-- The return value of `on_message` is the `decisionReturn` of the
decision-level reading `classifyWith` at the state's three inputs. -/
theorem on_message_snd (s : SessionState) (m : String) :
    (on_message s m).2 =
      decisionReturn
        (classifyWith s.agent_is_speaking s.ignore_words s.interrupt_words m) := by
  simp only [on_message, classifyWith]
  generalize (s.interrupt_words.any fun word => pyIn word (normalizeText m)) = ci
  generalize (!(pySplit (normalizeText m)).isEmpty &&
    (pySplit (normalizeText m)).all fun word => s.ignore_words.contains word) = sw
  cases s.agent_is_speaking <;> cases ci <;> cases sw <;> rfl

/-- C1: while the agent is silent, `on_message` returns the original
message whatever its content and whatever the two word lists hold; at the
decision level this is `PassThrough` of the original fragment. -/
theorem silent_passthrough (ig iw : List String) (lg : List LogEntry) (m : String) :
    classifyWith false ig iw m = ClassificationDecision.PassThrough m ∧
    (on_message ⟨false, ig, iw, lg⟩ m).2 = some m :=
  ⟨rfl, rfl⟩

/-- C2: while the agent is speaking, a message whose normalized text contains
some interrupt-list entry as a raw substring is classified `HardInterrupt`
(the code returns the message), whatever the ignore list holds — in
particular even if every token is an ignore word. -/
theorem speaking_interrupt_precedence (s : SessionState) (m : String)
    (hspeak : s.agent_is_speaking = true)
    (hint : ∃ w ∈ s.interrupt_words, pyIn w (normalizeText m) = true) :
    classifyWith s.agent_is_speaking s.ignore_words s.interrupt_words m =
      ClassificationDecision.HardInterrupt m ∧
    (on_message s m).2 = some m := by
  have hci : (s.interrupt_words.any fun word => pyIn word (normalizeText m)) = true := by
    obtain ⟨w, hw, hpw⟩ := hint
    exact List.any_eq_true.mpr ⟨w, hw, hpw⟩
  have hcl : classifyWith s.agent_is_speaking s.ignore_words s.interrupt_words m =
      ClassificationDecision.HardInterrupt m := by
    simp only [classifyWith, hspeak, hci, if_true]
  exact ⟨hcl, by rw [on_message_snd, hcl]; rfl⟩

/-- C3: while the agent is speaking, a message with a non-empty token list,
every token an exact member of the ignore list, and no interrupt-list entry
occurring as a substring of the normalized text, is classified `Ignore`
(the code returns `None`). -/
theorem speaking_soft_ignore (s : SessionState) (m : String)
    (hspeak : s.agent_is_speaking = true)
    (hne : pySplit (normalizeText m) ≠ [])
    (hsoft : ∀ w ∈ pySplit (normalizeText m), w ∈ s.ignore_words)
    (hnoint : ∀ w ∈ s.interrupt_words, pyIn w (normalizeText m) = false) :
    classifyWith s.agent_is_speaking s.ignore_words s.interrupt_words m =
      ClassificationDecision.Ignore ∧
    (on_message s m).2 = none := by
  have hci : (s.interrupt_words.any fun word => pyIn word (normalizeText m)) = false := by
    refine List.any_eq_false.mpr fun w hw => ?_
    simp [hnoint w hw]
  have hsw : (!(pySplit (normalizeText m)).isEmpty &&
      (pySplit (normalizeText m)).all fun word => s.ignore_words.contains word) = true := by
    have h1 : (pySplit (normalizeText m)).isEmpty = false := by simpa using hne
    have h2 : ((pySplit (normalizeText m)).all fun word => s.ignore_words.contains word) = true :=
      List.all_eq_true.mpr fun w hw => by simpa using hsoft w hw
    exact Bool.and_eq_true_iff.mpr ⟨by simp [h1], h2⟩
  have hcl : classifyWith s.agent_is_speaking s.ignore_words s.interrupt_words m =
      ClassificationDecision.Ignore := by
    simp only [classifyWith, hspeak, hci, hsw, if_true, if_false, Bool.false_eq_true]
  exact ⟨hcl, by rw [on_message_snd, hcl]; rfl⟩

/-- C4: while the agent is speaking, a message with no interrupt-list entry
in its normalized text and at least one token outside the ignore list is
classified `SemanticInterrupt` carrying the fragment (the code returns the
message). -/
theorem speaking_semantic_interrupt (s : SessionState) (m : String)
    (hspeak : s.agent_is_speaking = true)
    (hnoint : ∀ w ∈ s.interrupt_words, pyIn w (normalizeText m) = false)
    (hnotsoft : ¬ ∀ w ∈ pySplit (normalizeText m), w ∈ s.ignore_words) :
    classifyWith s.agent_is_speaking s.ignore_words s.interrupt_words m =
      ClassificationDecision.SemanticInterrupt m ∧
    (on_message s m).2 = some m := by
  have hci : (s.interrupt_words.any fun word => pyIn word (normalizeText m)) = false := by
    refine List.any_eq_false.mpr fun w hw => ?_
    simp [hnoint w hw]
  have hall : ((pySplit (normalizeText m)).all fun word => s.ignore_words.contains word) = false := by
    by_contra hc
    exact hnotsoft fun w hw => by
      have := List.all_eq_true.mp (Bool.of_not_eq_false hc) w hw
      simpa using this
  have hcl : classifyWith s.agent_is_speaking s.ignore_words s.interrupt_words m =
      ClassificationDecision.SemanticInterrupt m := by
    simp only [classifyWith, hspeak, hci, hall, Bool.and_false, if_true, if_false,
      Bool.false_eq_true]
  exact ⟨hcl, by rw [on_message_snd, hcl]; rfl⟩

/-- C2 witness: with overlapping lists (the defensive tie-break case) and the
fragment "no", whose sole token is an ignore word, the result is still
`HardInterrupt`. -/
theorem speaking_interrupt_precedence_witness :
    classifyWith true ["no"] ["no"] "no" =
      ClassificationDecision.HardInterrupt "no" ∧
    (on_message ⟨true, ["no"], ["no"], []⟩ "no").2 = some "no" :=
  speaking_interrupt_precedence ⟨true, ["no"], ["no"], []⟩ "no" rfl
    ⟨"no", by decide, by decide⟩

/-- C3 witness: while speaking, "yeah okay" is ignored. -/
theorem speaking_soft_ignore_witness :
    classifyWith true IGNORE_WORDS INTERRUPT_WORDS "yeah okay" =
      ClassificationDecision.Ignore ∧
    (on_message ⟨true, IGNORE_WORDS, INTERRUPT_WORDS, []⟩ "yeah okay").2 = none :=
  speaking_soft_ignore ⟨true, IGNORE_WORDS, INTERRUPT_WORDS, []⟩ "yeah okay" rfl
    (by decide) (by decide) (by decide)

/-- C4 witness: while speaking, "what time is the meeting tomorrow" is a
semantic interrupt. -/
theorem speaking_semantic_interrupt_witness :
    classifyWith true IGNORE_WORDS INTERRUPT_WORDS
        "what time is the meeting tomorrow" =
      ClassificationDecision.SemanticInterrupt "what time is the meeting tomorrow" ∧
    (on_message ⟨true, IGNORE_WORDS, INTERRUPT_WORDS, []⟩
        "what time is the meeting tomorrow").2 =
      some "what time is the meeting tomorrow" :=
  speaking_semantic_interrupt ⟨true, IGNORE_WORDS, INTERRUPT_WORDS, []⟩
    "what time is the meeting tomorrow" rfl (by decide) (by decide)

/-- C5 (counterexample): a whitespace-only fragment normalizes to zero tokens,
yet while speaking the code classifies it `SemanticInterrupt` (returning the
original message), and while silent `PassThrough` — not `Ignore`. -/
theorem empty_input_not_ignored :
    classifyWith true IGNORE_WORDS INTERRUPT_WORDS "   " =
      ClassificationDecision.SemanticInterrupt "   " ∧
    classifyWith false IGNORE_WORDS INTERRUPT_WORDS "   " =
      ClassificationDecision.PassThrough "   " ∧
    (on_message ⟨true, IGNORE_WORDS, INTERRUPT_WORDS, []⟩ "   ").2 = some "   " ∧
    ClassificationDecision.SemanticInterrupt "   " ≠ ClassificationDecision.Ignore :=
  ⟨by decide, by decide, by decide, by decide⟩

/-- C5 (amended): a fragment whose text normalizes to the empty string (empty
or whitespace-only input, the texts with zero tokens) gets no special case:
while speaking it is classified `SemanticInterrupt` (no interrupt substring
occurs in empty text and `only_soft_words` is false on zero tokens), while
silent `PassThrough`; in both cases the code returns the original message. -/
theorem empty_text_amended (sp : Bool) (lg : List LogEntry) (m : String)
    (h : normalizeText m = "") :
    classifyWith sp IGNORE_WORDS INTERRUPT_WORDS m =
      (if sp then ClassificationDecision.SemanticInterrupt m
       else ClassificationDecision.PassThrough m) ∧
    (on_message ⟨sp, IGNORE_WORDS, INTERRUPT_WORDS, lg⟩ m).2 = some m := by
  have hcl : classifyWith sp IGNORE_WORDS INTERRUPT_WORDS m =
      (if sp then ClassificationDecision.SemanticInterrupt m
       else ClassificationDecision.PassThrough m) := by
    simp only [classifyWith, h]
    cases sp
    · rfl
    · have h1 : ¬(INTERRUPT_WORDS.any fun word => pyIn word ("" : String)) = true := by
        decide
      have h2 : ¬(!(pySplit ("" : String)).isEmpty &&
          (pySplit ("" : String)).all fun word => IGNORE_WORDS.contains word) = true := by
        decide
      rw [if_neg h1, if_neg h2]
  refine ⟨hcl, ?_⟩
  rw [on_message_snd]
  show decisionReturn (classifyWith sp IGNORE_WORDS INTERRUPT_WORDS m) = some m
  rw [hcl]
  cases sp <;> rfl

/-- C5 amended witness: the whitespace-only fragment " \t " while speaking. -/
theorem empty_text_amended_witness :
    classifyWith true IGNORE_WORDS INTERRUPT_WORDS " \t " =
      ClassificationDecision.SemanticInterrupt " \t " ∧
    (on_message ⟨true, IGNORE_WORDS, INTERRUPT_WORDS, []⟩ " \t ").2 = some " \t " :=
  empty_text_amended true [] " \t " (by decide)

/-- C6: constructing the classifier with overlapping word lists (for example
`["no"]` and `["no"]`) yields `ConfigurationError`, so no classifier value
exists for a `Classify` call; with disjoint lists construction succeeds. -/
theorem config_overlap_rejected :
    mkClassifier ["no"] ["no"] = Except.error ConfigError.ConfigurationError ∧
    ∀ ig iw : List String, (∀ w ∈ ig, w ∉ iw) →
      mkClassifier ig iw = Except.ok { ignore_words := ig, interrupt_words := iw } := by
  constructor
  · rfl
  · intro ig iw hdisj
    have hany : (ig.any fun w => iw.contains w) = false :=
      List.any_eq_false.mpr fun w hw => by simpa using hdisj w hw
    unfold mkClassifier
    rw [if_neg (by rw [hany]; decide)]

/-- C6 witness: the source of the two configured lists is disjoint, and
construction with them succeeds. -/
theorem config_overlap_rejected_witness :
    mkClassifier IGNORE_WORDS INTERRUPT_WORDS =
      Except.ok { ignore_words := IGNORE_WORDS, interrupt_words := INTERRUPT_WORDS } :=
  config_overlap_rejected.2 IGNORE_WORDS INTERRUPT_WORDS (by decide)

/-- C7: the tracker starts silent; after any sequence of lifecycle signals a
final start leaves it speaking and a final complete leaves it silent; both
handlers are idempotent on the speaking flag; and the concrete redundant
sequence start, start, complete, complete passes through speaking, silent,
silent. -/
theorem lifecycle_idempotent :
    initState.agent_is_speaking = false ∧
    (∀ evs : List LifecycleEvent,
      (runLifecycle initState (evs ++ [LifecycleEvent.started])).agent_is_speaking = true) ∧
    (∀ evs : List LifecycleEvent,
      (runLifecycle initState (evs ++ [LifecycleEvent.completed])).agent_is_speaking = false) ∧
    (∀ s : SessionState,
      (on_enter (on_enter s)).agent_is_speaking = (on_enter s).agent_is_speaking) ∧
    (∀ s : SessionState,
      (on_response_complete (on_response_complete s)).agent_is_speaking =
        (on_response_complete s).agent_is_speaking) ∧
    (runLifecycle initState
      [LifecycleEvent.started, LifecycleEvent.started]).agent_is_speaking = true ∧
    (runLifecycle initState
      [LifecycleEvent.started, LifecycleEvent.started,
       LifecycleEvent.completed]).agent_is_speaking = false ∧
    (runLifecycle initState
      [LifecycleEvent.started, LifecycleEvent.started, LifecycleEvent.completed,
       LifecycleEvent.completed]).agent_is_speaking = false := by
  refine ⟨rfl, ?_, ?_, fun s => rfl, fun s => rfl, rfl, rfl, rfl⟩
  · intro evs
    rw [runLifecycle, List.foldl_append]
    rfl
  · intro evs
    rw [runLifecycle, List.foldl_append]
    rfl

/-- C8: the hook return value is a function of the speaking flag, the two word
lists, and the message text alone — two states agreeing on those three (for
instance with different logs) produce the same decision. -/
theorem classify_deterministic (s1 s2 : SessionState) (m1 m2 : String)
    (hsp : s1.agent_is_speaking = s2.agent_is_speaking)
    (hig : s1.ignore_words = s2.ignore_words)
    (hiw : s1.interrupt_words = s2.interrupt_words)
    (hm : m1 = m2) :
    (on_message s1 m1).2 = (on_message s2 m2).2 := by
  rw [on_message_snd, on_message_snd, hsp, hig, hiw, hm]

/-- C8 witness: the same call against states differing only in their logs. -/
theorem classify_deterministic_witness :
    (on_message ⟨true, IGNORE_WORDS, INTERRUPT_WORDS, []⟩ "stop").2 =
      (on_message ⟨true, IGNORE_WORDS, INTERRUPT_WORDS,
        [LogEntry.agentStartedSpeaking]⟩ "stop").2 :=
  classify_deterministic _ _ _ _ rfl rfl rfl rfl

/-- C9: `on_message` never changes the speaking flag or either word list;
its only state effect is appending log records. -/
theorem on_message_frame (s : SessionState) (m : String) :
    ((on_message s m).1).agent_is_speaking = s.agent_is_speaking ∧
    ((on_message s m).1).ignore_words = s.ignore_words ∧
    ((on_message s m).1).interrupt_words = s.interrupt_words := by
  simp only [on_message]
  generalize (s.interrupt_words.any fun word => pyIn word (normalizeText m)) = ci
  generalize (!(pySplit (normalizeText m)).isEmpty &&
    (pySplit (normalizeText m)).all fun word => s.ignore_words.contains word) = sw
  cases s.agent_is_speaking <;> cases ci <;> cases sw <;> exact ⟨rfl, rfl, rfl⟩

/-- C10: every branch of the hook that forwards anything forwards the original
message verbatim (never the lowercased / stripped text): the return value is
always `none` or `some` of the input, and the decision is `Ignore` or a
variant carrying the original fragment. -/
theorem forwarded_fragment_verbatim (s : SessionState) (m : String) :
    ((on_message s m).2 = none ∨ (on_message s m).2 = some m) ∧
    (classifyWith s.agent_is_speaking s.ignore_words s.interrupt_words m =
        ClassificationDecision.Ignore ∨
      classifyWith s.agent_is_speaking s.ignore_words s.interrupt_words m =
        ClassificationDecision.PassThrough m ∨
      classifyWith s.agent_is_speaking s.ignore_words s.interrupt_words m =
        ClassificationDecision.HardInterrupt m ∨
      classifyWith s.agent_is_speaking s.ignore_words s.interrupt_words m =
        ClassificationDecision.SemanticInterrupt m) := by
  rw [on_message_snd]
  simp only [classifyWith]
  generalize (s.interrupt_words.any fun word => pyIn word (normalizeText m)) = ci
  generalize (!(pySplit (normalizeText m)).isEmpty &&
    (pySplit (normalizeText m)).all fun word => s.ignore_words.contains word) = sw
  cases s.agent_is_speaking <;> cases ci <;> cases sw <;> simp [decisionReturn]
